import Mathlib

/-!
Verification of the zeekmon report store and reporting scheduler
(`cmd/report.go`), together with the Sample Window component described in
the design document. Go `float64` values are embedded as `GFloat`
(NaN / +Inf / -Inf / finite rational), and `encoding/json` marshaling is
embedded at the level that matters for the properties under study: it
fails exactly when a float field holds NaN or an infinity, and otherwise
its wire image is determined by the field values of the (sanitized)
report it carries.
-/

/-- Embedding of a Go `float64` as used by the report code: NaN, the two
infinities, or a finite value (exact rational). -/
inductive GFloat where
  | nan : GFloat
  | pinf : GFloat
  | ninf : GFloat
  | fin : ℚ → GFloat
deriving DecidableEq, Repr

/-- Embedding of Go `math.IsNaN`. -/
def GFloat.isNaN : GFloat → Bool
  | .nan => true
  | _ => false

/-- True on the two infinities. -/
def GFloat.isInf : GFloat → Bool
  | .pinf => true
  | .ninf => true
  | _ => false

/-- A float value that `encoding/json` can represent: finite only.
Go `json.Marshal` reports `json: unsupported value` on NaN and ±Inf. -/
def GFloat.encodable : GFloat → Bool
  | .fin _ => true
  | _ => false

/-- Embedding of Go `time.Time` at the granularity the report code uses:
seconds since the epoch plus a nanosecond part. -/
structure GoTime where
  sec : Int
  nsec : Nat
deriving DecidableEq, Repr

/-- Embedding of `time.Time.Unix()`: epoch seconds. -/
def GoTime.Unix (t : GoTime) : Int := t.sec

/-- Truncation of a rational toward zero, as Go `int(f)` does on a float. -/
def ratTruncInt (q : ℚ) : Int := q.num.tdiv (q.den : Int)

/-- Embedding of `time.Duration.Seconds()`: the duration (nanoseconds)
as an exact rational number of seconds. -/
def durationSeconds (d : Int) : ℚ := (d : ℚ) / 1000000000

/-- Embedding of the `IntervalReport` struct of `cmd/report.go`.
`Age` is a Go `time.Duration` in nanoseconds; the histogram map is
carried as an association list. -/
structure IntervalReport where
  PID : Int
  Role : String
  InitTimestamp : GoTime
  Timestamp : GoTime
  Age : Int
  WindowRate : GFloat
  StandardDev : GFloat
  LifetimeRate : GFloat
  CurrentRate : GFloat
  TimesRestated : Nat
  VirtMemoryBytes : Nat
  RSSBytes : Int
  RateHistogram : List (String × Int)
deriving DecidableEq, Repr

/-- Embedding of the `String()` method on `IntervalReport` (Go name
`String`, lowercased since the Lean type `String` occupies that name).
Literal braces of the exposition format are written as their escapes.
Note the second line uses `i.Timestamp` (the last-seen time), exactly as
the source does. -/
def IntervalReport.string (i : IntervalReport) : String :=
  let role := i.Role
  let pid := "bro_pid\x7brole=\"" ++ role ++ "\"\x7d " ++ toString i.PID
  let first_seen := "bro_process_start_seconds\x7brole=\"" ++ role ++ "\"\x7d "
    ++ toString i.Timestamp.Unix
  let age := "bro_process_age_seconds\x7brole=\"" ++ role ++ "\"\x7d "
    ++ toString (ratTruncInt (durationSeconds i.Age))
  let vmem := "bro_virtual_memory_bytes\x7brole=\"" ++ role ++ "\"\x7d "
    ++ toString i.VirtMemoryBytes
  pid ++ "\n" ++ first_seen ++ "\n" ++ age ++ "\n" ++ vmem ++ "\n"

/-- The errors the embedded code can surface. `errNoInfoForRole` is the
named error returned by `RoleToJSON` for an absent role (declared outside
`report.go`); `zeroSummaries` is `errors.New("zero summaries currently
available")` from `All`; `unsupportedValue` is the `encoding/json`
failure on NaN / ±Inf floats. -/
inductive GoError where
  | errNoInfoForRole
  | zeroSummaries
  | unsupportedValue
deriving DecidableEq, Repr

/-- A report all of whose float fields `encoding/json` can represent. -/
def IntervalReport.jsonEncodable (r : IntervalReport) : Bool :=
  r.WindowRate.encodable && r.StandardDev.encodable
    && r.LifetimeRate.encodable && r.CurrentRate.encodable

/-- Embedding of `json.Marshal` on a single `*IntervalReport`: fails
exactly when a float field is NaN or ±Inf; otherwise the wire image is
determined by the report's field values, which is what it carries. -/
def marshalIntervalReport (r : IntervalReport) : Except GoError IntervalReport :=
  if r.jsonEncodable then .ok r else .error .unsupportedValue

/-- Embedding of `json.Marshal` on a `[]*IntervalReport`: fails exactly
when some non-nil element has a NaN / ±Inf float field (a nil pointer
marshals as `null` and cannot fail). -/
def marshalReportList (l : List (Option IntervalReport)) :
    Except GoError (List (Option IntervalReport)) :=
  if l.all (fun x => match x with | none => true | some r => r.jsonEncodable)
  then .ok l else .error .unsupportedValue

/-- Embedding of the `Summaries` store: the `map[string]*IntervalReport`
as an association list (first binding for a key is its value; the insert
operation keeps keys distinct, as a Go map does). The `sync.RWMutex` is
not modelled: execution is sequential here. -/
abbrev Summaries := List (String × IntervalReport)

/-- The store as initialized at startup: empty. -/
def initialStore : Summaries := []

/-- Embedding of `Summaries.Insert`: `s.m[r.Role] = r`, replacing any
existing entry for that role. -/
def Summaries.Insert (s : Summaries) (r : IntervalReport) : Summaries :=
  (r.Role, r) :: List.filter (fun p => p.1 != r.Role) s

/-- Embedding of `Summaries.Len`: `len(s.m)`. -/
def Summaries.Len (s : Summaries) : Nat := List.length s

/-- Embedding of `Summaries.Empty`: `len(s.m) == 0`. -/
def Summaries.Empty (s : Summaries) : Bool := Summaries.Len s == 0

/-- Embedding of `Summaries.findRole`: map lookup, `nil` for absent
becomes `none`. -/
def Summaries.findRole (s : Summaries) (role : String) : Option IntervalReport :=
  match List.find? (fun p => p.1 == role) s with
  | some p => some p.2
  | none => none

/-- Embedding of `Summaries.safeIntervalReport`: looks the role up, copies
every field into a fresh report, then replaces each of the four rate
fields by -1 when it `IsNaN` (and only then — infinities pass through,
as in the source). -/
def Summaries.safeIntervalReport (s : Summaries) (role : String) :
    Option IntervalReport :=
  match Summaries.findRole s role with
  | none => none
  | some rep =>
    let safeRep : IntervalReport :=
      { PID := rep.PID
        Role := rep.Role
        InitTimestamp := rep.InitTimestamp
        Timestamp := rep.Timestamp
        Age := rep.Age
        WindowRate := rep.WindowRate
        StandardDev := rep.StandardDev
        LifetimeRate := rep.LifetimeRate
        CurrentRate := rep.CurrentRate
        RateHistogram := rep.RateHistogram
        TimesRestated := rep.TimesRestated
        VirtMemoryBytes := rep.VirtMemoryBytes
        RSSBytes := rep.RSSBytes }
    let safeRep :=
      if safeRep.CurrentRate.isNaN then { safeRep with CurrentRate := .fin (-1) }
      else safeRep
    let safeRep :=
      if safeRep.LifetimeRate.isNaN then { safeRep with LifetimeRate := .fin (-1) }
      else safeRep
    let safeRep :=
      if safeRep.StandardDev.isNaN then { safeRep with StandardDev := .fin (-1) }
      else safeRep
    let safeRep :=
      if safeRep.WindowRate.isNaN then { safeRep with WindowRate := .fin (-1) }
      else safeRep
    some safeRep

/-- Embedding of `Summaries.RoleToJSON`: named error when the role is
absent, otherwise `json.Marshal` of the sanitized copy. -/
def Summaries.RoleToJSON (s : Summaries) (role : String) :
    Except GoError IntervalReport :=
  match Summaries.safeIntervalReport s role with
  | none => .error .errNoInfoForRole
  | some rep => marshalIntervalReport rep

/-- Embedding of `Summaries.ToJSON`: `json.Marshal` of the list built by
iterating the map and sanitizing each role's report. -/
def Summaries.ToJSON (s : Summaries) :
    Except GoError (List (Option IntervalReport)) :=
  marshalReportList (List.map (fun p => Summaries.safeIntervalReport s p.1) s)

/-- Embedding of `Summaries.All`: error on an empty store, otherwise the
list of sanitized reports, one slot per stored entry. -/
def Summaries.All (s : Summaries) :
    Except GoError (List (Option IntervalReport)) :=
  if Summaries.Len s = 0 then .error .zeroSummaries
  else .ok (List.map (fun p => Summaries.safeIntervalReport s p.1) s)

/-- The store as left in place after a `RoleToJSON` call: the method only
reads `s.m` (under the read lock) and builds the sanitized report as a
fresh record, so the map it leaves behind is the one it found. -/
def Summaries.storeAfterRoleToJSON (s : Summaries) (_role : String) : Summaries := s

/-- The store as left in place after a `ToJSON` call: the method only
reads `s.m`, so the map it leaves behind is the one it found. -/
def Summaries.storeAfterToJSON (s : Summaries) : Summaries := s

/-- The events the `startIntervalReport` loop reacts to: a channel
receive (`none` embeds the `nil` end-of-stream marker), a ticker tick,
and the default-branch idle sleep. -/
inductive SchedEvent where
  | recv : Option IntervalReport → SchedEvent
  | tick : SchedEvent
  | idle : SchedEvent
deriving DecidableEq, Repr

/-- State of the reporting scheduler: the global `metricsReport` store,
the data written to standard output so far (each flush one wire image),
and the serialization failures logged so far. -/
structure SchedState where
  store : Summaries
  output : List (List (Option IntervalReport))
  logs : List GoError

/-- One iteration of the `startIntervalReport` select loop. `none` means
the loop returned (a `nil` report was received). On a tick with a
non-empty store, `ToJSON` is attempted: a failure is logged and the
iteration `continue`s, a success is written to the output sink. -/
def schedStep (st : SchedState) : SchedEvent → Option SchedState
  | .recv none => none
  | .recv (some r) => some { st with store := Summaries.Insert st.store r }
  | .tick =>
    if !(Summaries.Empty st.store) then
      match Summaries.ToJSON st.store with
      | .error e => some { st with logs := st.logs ++ [e] }
      | .ok data => some { st with output := st.output ++ [data] }
    else some st
  | .idle => some st

/-- Running the scheduler loop over a finite schedule of events; the
boolean records whether the loop returned (hit the `nil` marker) during
the schedule. -/
def schedRun : SchedState → List SchedEvent → SchedState × Bool
  | st, [] => (st, false)
  | st, e :: es =>
    match schedStep st e with
    | none => (st, true)
    | some st2 => schedRun st2 es

/-- Modelled from the spec: the Sample Window component (its source is
not under `src/`; only `cmd/report.go` and the entry point are). A
fixed-capacity ring buffer of recent rate samples, most recent last;
sample values are embedded as exact rationals. -/
structure SampleWindow where
  capacity : Nat
  samples : List ℚ
deriving DecidableEq, Repr

/-- Modelled from the spec: `push` appends a sample, evicting the oldest
entries if the capacity is exceeded. -/
def SampleWindow.push (w : SampleWindow) (x : ℚ) : SampleWindow :=
  let l := w.samples ++ [x]
  { w with samples := if w.capacity < l.length then l.drop (l.length - w.capacity) else l }

/-- Modelled from the spec: `mean` is the arithmetic mean of the current
contents, NaN if the window is empty. -/
def SampleWindow.mean (w : SampleWindow) : GFloat :=
  if w.samples.length = 0 then .nan
  else .fin (w.samples.sum / w.samples.length)

/-- Modelled from the spec: `stddev` is the population standard deviation
of the current contents by the two-pass formula (mean first, then mean of
squared deviations), NaN with fewer than 2 samples. The floating-point
square root is embedded as the rational-valued `Rat.sqrt`, which is exact
at every perfect square — in particular at 0, the only point the
properties under study depend on. -/
def SampleWindow.stddev (w : SampleWindow) : GFloat :=
  if w.samples.length < 2 then .nan
  else
    let m := w.samples.sum / w.samples.length
    .fin (Rat.sqrt ((List.map (fun x => (x - m) ^ 2) w.samples).sum / w.samples.length))

/-! ### Basic store lemmas -/

theorem findRole_Insert_self (s : Summaries) (r : IntervalReport) :
    Summaries.findRole (Summaries.Insert s r) r.Role = some r := by
  simp [Summaries.findRole, Summaries.Insert, List.find?]

theorem findRole_isSome_of_mem (s : Summaries) (p : String × IntervalReport)
    (hp : p ∈ s) : (Summaries.findRole s p.1).isSome = true := by
  unfold Summaries.findRole
  have h : (List.find? (fun q => q.1 == p.1) s).isSome = true :=
    List.find?_isSome.mpr ⟨p, hp, by simp⟩
  cases hfind : List.find? (fun q => q.1 == p.1) s with
  | none => rw [hfind] at h; simp at h
  | some q => simp

/-- The sanitized copy built by `safeIntervalReport` for a present role:
every field copied, each NaN rate field replaced by -1. -/
theorem safeIntervalReport_eq (s : Summaries) (role : String) (rep : IntervalReport)
    (h : Summaries.findRole s role = some rep) :
    Summaries.safeIntervalReport s role = some
      { rep with
        CurrentRate := if rep.CurrentRate.isNaN then GFloat.fin (-1) else rep.CurrentRate
        LifetimeRate := if rep.LifetimeRate.isNaN then GFloat.fin (-1) else rep.LifetimeRate
        StandardDev := if rep.StandardDev.isNaN then GFloat.fin (-1) else rep.StandardDev
        WindowRate := if rep.WindowRate.isNaN then GFloat.fin (-1) else rep.WindowRate } := by
  cases hc : rep.CurrentRate.isNaN <;> cases hl : rep.LifetimeRate.isNaN <;>
    cases hsd : rep.StandardDev.isNaN <;> cases hw : rep.WindowRate.isNaN <;>
    simp [Summaries.safeIntervalReport, h, hc, hl, hsd, hw]

theorem safeIntervalReport_none (s : Summaries) (role : String)
    (h : Summaries.findRole s role = none) :
    Summaries.safeIntervalReport s role = none := by
  simp [Summaries.safeIntervalReport, h]

/-- A rate field that is neither NaN nor an infinity is finite, so its
sanitized form is JSON-encodable. -/
theorem encodable_sanitize (x : GFloat) (h : x.isInf = false) :
    (if x.isNaN then GFloat.fin (-1) else x).encodable = true := by
  cases x <;> simp_all [GFloat.isNaN, GFloat.isInf, GFloat.encodable]

theorem sanitize_of_inf (x : GFloat) (h : x.isInf = true) :
    (if x.isNaN then GFloat.fin (-1) else x) = x ∧ x.encodable = false := by
  cases x <;> simp_all [GFloat.isNaN, GFloat.isInf, GFloat.encodable]

/-- A successful `RoleToJSON` carries exactly the sanitized copy, and
that copy is JSON-encodable. -/
theorem RoleToJSON_ok (s : Summaries) (role : String) (w : IntervalReport)
    (hw : Summaries.RoleToJSON s role = Except.ok w) :
    Summaries.safeIntervalReport s role = some w ∧ w.jsonEncodable = true := by
  unfold Summaries.RoleToJSON at hw
  cases hsafe : Summaries.safeIntervalReport s role with
  | none => rw [hsafe] at hw; cases hw
  | some rep =>
    rw [hsafe] at hw
    simp only [marshalIntervalReport] at hw
    by_cases henc : rep.jsonEncodable = true
    · rw [if_pos henc] at hw
      cases hw
      exact ⟨rfl, henc⟩
    · rw [if_neg henc] at hw
      cases hw

/-! ### Claim theorems -/

/-- Claim C3: for every store state and report `r`, `Insert r` followed
immediately by `findRole r.Role` returns exactly the just-inserted
report `r`, with no field altered. -/
theorem insert_then_findRole (s : Summaries) (r : IntervalReport) :
    Summaries.findRole (Summaries.Insert s r) r.Role = some r :=
  findRole_Insert_self s r

/-- Claim C2: serialization works on a copy and never mutates the stored
report: for any role present in the store, after `RoleToJSON` (on any
queried role) or `ToJSON`, `findRole` still returns the stored report
unchanged — while a successful `RoleToJSON` for that role carries the
sanitized values (NaN rate fields as -1). -/
theorem serialization_never_mutates (s : Summaries) (role q : String)
    (rep : IntervalReport) (h : Summaries.findRole s role = some rep) :
    Summaries.findRole (Summaries.storeAfterRoleToJSON s q) role = some rep ∧
    Summaries.findRole (Summaries.storeAfterToJSON s) role = some rep ∧
    (∀ w, Summaries.RoleToJSON s role = Except.ok w →
      w.CurrentRate = (if rep.CurrentRate.isNaN then GFloat.fin (-1) else rep.CurrentRate) ∧
      w.LifetimeRate = (if rep.LifetimeRate.isNaN then GFloat.fin (-1) else rep.LifetimeRate) ∧
      w.StandardDev = (if rep.StandardDev.isNaN then GFloat.fin (-1) else rep.StandardDev) ∧
      w.WindowRate = (if rep.WindowRate.isNaN then GFloat.fin (-1) else rep.WindowRate)) := by
  refine ⟨h, h, fun w hw => ?_⟩
  obtain ⟨hsafe, -⟩ := RoleToJSON_ok s role w hw
  rw [safeIntervalReport_eq s role rep h] at hsafe
  cases hsafe
  exact ⟨rfl, rfl, rfl, rfl⟩

/-! ### Concrete stores used as inputs -/

/-- A report whose WindowRate is -Inf (reachable in the source domain:
the rate figures are arbitrary float64 values). -/
def repInfW : IntervalReport :=
  { PID := 3, Role := "v", InitTimestamp := ⟨10, 0⟩, Timestamp := ⟨20, 0⟩
    Age := 10000000000, WindowRate := GFloat.ninf, StandardDev := GFloat.fin 0
    LifetimeRate := GFloat.fin 0, CurrentRate := GFloat.fin 0
    TimesRestated := 0, VirtMemoryBytes := 2048, RSSBytes := 100
    RateHistogram := [] }

/-- A store holding `repInfW` under role "v". -/
def infStore : Summaries := Summaries.Insert initialStore repInfW

/-- A report whose CurrentRate is +Inf. -/
def repInfC : IntervalReport :=
  { PID := 4, Role := "w", InitTimestamp := ⟨11, 0⟩, Timestamp := ⟨21, 0⟩
    Age := 10000000000, WindowRate := GFloat.fin 1, StandardDev := GFloat.fin 0
    LifetimeRate := GFloat.fin 0, CurrentRate := GFloat.pinf
    TimesRestated := 1, VirtMemoryBytes := 4096, RSSBytes := 200
    RateHistogram := [] }

/-- A store holding `repInfC` under role "w". -/
def infStoreB : Summaries := Summaries.Insert initialStore repInfC

/-- A report whose CurrentRate and StandardDev are NaN, as produced for a
newly observed role before enough samples exist. -/
def repNaN : IntervalReport :=
  { PID := 5, Role := "n", InitTimestamp := ⟨12, 0⟩, Timestamp := ⟨22, 0⟩
    Age := 10000000000, WindowRate := GFloat.fin 1, StandardDev := GFloat.nan
    LifetimeRate := GFloat.fin 2, CurrentRate := GFloat.nan
    TimesRestated := 0, VirtMemoryBytes := 512, RSSBytes := 50
    RateHistogram := [("0-10", 2)] }

/-- A store holding `repNaN` under role "n". -/
def storeNaN : Summaries := Summaries.Insert initialStore repNaN

/-! ### Encodability of the sanitized copy -/

theorem sanitized_jsonEncodable_false (rep : IntervalReport)
    (hinf : (rep.CurrentRate.isInf || rep.LifetimeRate.isInf
      || rep.StandardDev.isInf || rep.WindowRate.isInf) = true) :
    IntervalReport.jsonEncodable
      { rep with
        CurrentRate := if rep.CurrentRate.isNaN then GFloat.fin (-1) else rep.CurrentRate
        LifetimeRate := if rep.LifetimeRate.isNaN then GFloat.fin (-1) else rep.LifetimeRate
        StandardDev := if rep.StandardDev.isNaN then GFloat.fin (-1) else rep.StandardDev
        WindowRate := if rep.WindowRate.isNaN then GFloat.fin (-1) else rep.WindowRate }
      = false := by
  simp only [Bool.or_eq_true] at hinf
  unfold IntervalReport.jsonEncodable
  rcases hinf with ((hc | hl) | hsd) | hw
  · have h2 := sanitize_of_inf rep.CurrentRate hc
    simp [h2.1, h2.2]
  · have h2 := sanitize_of_inf rep.LifetimeRate hl
    simp [h2.1, h2.2]
  · have h2 := sanitize_of_inf rep.StandardDev hsd
    simp [h2.1, h2.2]
  · have h2 := sanitize_of_inf rep.WindowRate hw
    simp [h2.1, h2.2]

theorem sanitized_jsonEncodable_true (rep : IntervalReport)
    (hinf : (rep.CurrentRate.isInf || rep.LifetimeRate.isInf
      || rep.StandardDev.isInf || rep.WindowRate.isInf) = false) :
    IntervalReport.jsonEncodable
      { rep with
        CurrentRate := if rep.CurrentRate.isNaN then GFloat.fin (-1) else rep.CurrentRate
        LifetimeRate := if rep.LifetimeRate.isNaN then GFloat.fin (-1) else rep.LifetimeRate
        StandardDev := if rep.StandardDev.isNaN then GFloat.fin (-1) else rep.StandardDev
        WindowRate := if rep.WindowRate.isNaN then GFloat.fin (-1) else rep.WindowRate }
      = true := by
  simp only [Bool.or_eq_false_iff] at hinf
  unfold IntervalReport.jsonEncodable
  simp [encodable_sanitize rep.CurrentRate hinf.1.1.1,
    encodable_sanitize rep.LifetimeRate hinf.1.1.2,
    encodable_sanitize rep.StandardDev hinf.1.2,
    encodable_sanitize rep.WindowRate hinf.2]

theorem RoleToJSON_error_of_inf (s : Summaries) (role : String)
    (rep : IntervalReport) (h : Summaries.findRole s role = some rep)
    (hinf : (rep.CurrentRate.isInf || rep.LifetimeRate.isInf
      || rep.StandardDev.isInf || rep.WindowRate.isInf) = true) :
    Summaries.RoleToJSON s role = Except.error GoError.unsupportedValue := by
  unfold Summaries.RoleToJSON
  rw [safeIntervalReport_eq s role rep h]
  simp [marshalIntervalReport, sanitized_jsonEncodable_false rep hinf]

theorem RoleToJSON_ok_of_noInf (s : Summaries) (role : String)
    (rep : IntervalReport) (h : Summaries.findRole s role = some rep)
    (hinf : (rep.CurrentRate.isInf || rep.LifetimeRate.isInf
      || rep.StandardDev.isInf || rep.WindowRate.isInf) = false) :
    Summaries.RoleToJSON s role = Except.ok
      { rep with
        CurrentRate := if rep.CurrentRate.isNaN then GFloat.fin (-1) else rep.CurrentRate
        LifetimeRate := if rep.LifetimeRate.isNaN then GFloat.fin (-1) else rep.LifetimeRate
        StandardDev := if rep.StandardDev.isNaN then GFloat.fin (-1) else rep.StandardDev
        WindowRate := if rep.WindowRate.isNaN then GFloat.fin (-1) else rep.WindowRate } := by
  unfold Summaries.RoleToJSON
  rw [safeIntervalReport_eq s role rep h]
  simp [marshalIntervalReport, sanitized_jsonEncodable_true rep hinf]

/-- Claim C1 is refuted at this concrete input: role "v" is stored with a
-Inf WindowRate; the sanitized copy still carries -Inf rather than the
sentinel -1, and both serialization paths return the encoder error
without emitting any payload. -/
theorem infinity_not_sanitized :
    Summaries.findRole infStore "v" = some repInfW ∧
    repInfW.WindowRate = GFloat.ninf ∧
    (Summaries.safeIntervalReport infStore "v").map IntervalReport.WindowRate
      = some GFloat.ninf ∧
    (Summaries.safeIntervalReport infStore "v").map IntervalReport.WindowRate
      ≠ some (GFloat.fin (-1)) ∧
    Summaries.RoleToJSON infStore "v" = Except.error GoError.unsupportedValue ∧
    Summaries.ToJSON infStore = Except.error GoError.unsupportedValue := by
  refine ⟨rfl, rfl, rfl, ?_, rfl, rfl⟩
  decide

/-- Claim C1 (amended): the serialization paths never emit NaN, +Inf or
-Inf. A successful `RoleToJSON` carries exactly the stored values with
every NaN rate field replaced by -1 and all four rate fields
JSON-representable; a stored ±Inf rate field makes `RoleToJSON` return
the encoder error instead of emitting a value; and every report carried
by a successful `ToJSON` has only JSON-representable rate fields. -/
theorem serialization_never_emits_nan_or_inf (s : Summaries) (role : String)
    (rep w : IntervalReport) (h : Summaries.findRole s role = some rep) :
    (Summaries.RoleToJSON s role = Except.ok w →
      w.CurrentRate = (if rep.CurrentRate.isNaN then GFloat.fin (-1) else rep.CurrentRate) ∧
      w.LifetimeRate = (if rep.LifetimeRate.isNaN then GFloat.fin (-1) else rep.LifetimeRate) ∧
      w.StandardDev = (if rep.StandardDev.isNaN then GFloat.fin (-1) else rep.StandardDev) ∧
      w.WindowRate = (if rep.WindowRate.isNaN then GFloat.fin (-1) else rep.WindowRate) ∧
      w.jsonEncodable = true) ∧
    ((rep.CurrentRate.isInf || rep.LifetimeRate.isInf || rep.StandardDev.isInf
        || rep.WindowRate.isInf) = true →
      Summaries.RoleToJSON s role = Except.error GoError.unsupportedValue) ∧
    (∀ l, Summaries.ToJSON s = Except.ok l →
      ∀ x ∈ l, ∀ q, x = some q → q.jsonEncodable = true) := by
  refine ⟨fun hw => ?_, fun hinf => RoleToJSON_error_of_inf s role rep h hinf,
    fun l hl x hx q hq => ?_⟩
  · obtain ⟨hsafe, henc⟩ := RoleToJSON_ok s role w hw
    rw [safeIntervalReport_eq s role rep h] at hsafe
    cases hsafe
    exact ⟨rfl, rfl, rfl, rfl, henc⟩
  · unfold Summaries.ToJSON marshalReportList at hl
    by_cases hall : (List.map (fun p => Summaries.safeIntervalReport s p.1) s).all
        (fun x => match x with | none => true | some r => r.jsonEncodable) = true
    · rw [if_pos hall] at hl
      cases hl
      have hmem := List.all_eq_true.mp hall x hx
      rw [hq] at hmem
      simpa using hmem
    · rw [if_neg hall] at hl
      cases hl

/-- Witness for the amended C1: at the concrete store holding a -Inf
WindowRate under role "v", serialization returns the encoder error. -/
theorem serialization_never_emits_nan_or_inf_witness :
    Summaries.RoleToJSON infStore "v" = Except.error GoError.unsupportedValue :=
  (serialization_never_emits_nan_or_inf infStore "v" repInfW repInfW rfl).2.1 rfl

/-- Claim C5 is refuted at this concrete input: role "w" is present in
the store, yet `RoleToJSON` returns the encoder error (its +Inf
CurrentRate survives sanitization), not a sanitized payload. -/
theorem roleToJSON_fails_on_present_role :
    (Summaries.findRole infStoreB "w").isSome = true ∧
    Summaries.RoleToJSON infStoreB "w" = Except.error GoError.unsupportedValue :=
  ⟨rfl, rfl⟩

/-- Claim C5 (amended): `RoleToJSON` on an absent role returns the named
role-not-found error (and no payload); on a present role it returns the
NaN-sanitized serialization of that single role's report without error
provided no rate field is ±Inf, and fails with the encoder error when a
rate field is ±Inf. -/
theorem roleToJSON_spec (s : Summaries) (role : String) :
    (Summaries.findRole s role = none →
      Summaries.RoleToJSON s role = Except.error GoError.errNoInfoForRole) ∧
    (∀ rep, Summaries.findRole s role = some rep →
      (rep.CurrentRate.isInf || rep.LifetimeRate.isInf || rep.StandardDev.isInf
        || rep.WindowRate.isInf) = false →
      Summaries.RoleToJSON s role = Except.ok
        { rep with
          CurrentRate := if rep.CurrentRate.isNaN then GFloat.fin (-1) else rep.CurrentRate
          LifetimeRate := if rep.LifetimeRate.isNaN then GFloat.fin (-1) else rep.LifetimeRate
          StandardDev := if rep.StandardDev.isNaN then GFloat.fin (-1) else rep.StandardDev
          WindowRate := if rep.WindowRate.isNaN then GFloat.fin (-1) else rep.WindowRate }) ∧
    (∀ rep, Summaries.findRole s role = some rep →
      (rep.CurrentRate.isInf || rep.LifetimeRate.isInf || rep.StandardDev.isInf
        || rep.WindowRate.isInf) = true →
      Summaries.RoleToJSON s role = Except.error GoError.unsupportedValue) := by
  refine ⟨fun habs => ?_, fun rep h hinf => RoleToJSON_ok_of_noInf s role rep h hinf,
    fun rep h hinf => RoleToJSON_error_of_inf s role rep h hinf⟩
  unfold Summaries.RoleToJSON
  rw [safeIntervalReport_none s role habs]

/-- Witness for the amended C5: the empty store has no role "x", and
`RoleToJSON` surfaces the named error; the store holding a NaN report
under role "n" serializes it with the NaN fields as -1. -/
theorem roleToJSON_spec_witness :
    Summaries.RoleToJSON initialStore "x" = Except.error GoError.errNoInfoForRole ∧
    Summaries.RoleToJSON storeNaN "n" = Except.ok
      { repNaN with
        CurrentRate := if repNaN.CurrentRate.isNaN then GFloat.fin (-1) else repNaN.CurrentRate
        LifetimeRate := if repNaN.LifetimeRate.isNaN then GFloat.fin (-1) else repNaN.LifetimeRate
        StandardDev := if repNaN.StandardDev.isNaN then GFloat.fin (-1) else repNaN.StandardDev
        WindowRate := if repNaN.WindowRate.isNaN then GFloat.fin (-1) else repNaN.WindowRate } :=
  ⟨(roleToJSON_spec initialStore "x").1 rfl,
    (roleToJSON_spec storeNaN "n").2.1 repNaN rfl rfl⟩

theorem All_ok_eq (s : Summaries) (l : List (Option IntervalReport))
    (h : Summaries.All s = Except.ok l) :
    l = List.map (fun p => Summaries.safeIntervalReport s p.1) s := by
  unfold Summaries.All at h
  by_cases hlen : Summaries.Len s = 0
  · rw [if_pos hlen] at h; cases h
  · rw [if_neg hlen] at h; cases h; rfl

/-- Claim C4: `All` returns an error exactly when the store holds zero
entries; on the freshly initialized store it yields the empty-store
error, not an empty sequence; and on a non-empty store it returns, with
no error, a list with one slot per stored role, each slot actually
holding that role's sanitized report. -/
theorem all_empty_error_iff (s : Summaries) :
    (Summaries.All s = Except.error GoError.zeroSummaries ↔ Summaries.Len s = 0) ∧
    Summaries.All initialStore = Except.error GoError.zeroSummaries ∧
    (Summaries.Len s ≠ 0 →
      Summaries.All s
        = Except.ok (List.map (fun p => Summaries.safeIntervalReport s p.1) s) ∧
      (List.map (fun p => Summaries.safeIntervalReport s p.1) s).length
        = Summaries.Len s ∧
      ∀ p ∈ s,
        Summaries.safeIntervalReport s p.1
          ∈ List.map (fun p => Summaries.safeIntervalReport s p.1) s ∧
        (Summaries.safeIntervalReport s p.1).isSome = true) := by
  refine ⟨⟨fun h => ?_, fun h => ?_⟩, rfl, fun hne => ⟨?_, ?_, fun p hp => ⟨?_, ?_⟩⟩⟩
  · by_contra hlen
    unfold Summaries.All at h
    rw [if_neg hlen] at h
    cases h
  · unfold Summaries.All
    rw [if_pos h]
  · unfold Summaries.All
    rw [if_neg hne]
  · simp [Summaries.Len]
  · exact List.mem_map_of_mem _ hp
  · have hf := findRole_isSome_of_mem s p hp
    cases hfr : Summaries.findRole s p.1 with
    | none => rw [hfr] at hf; simp at hf
    | some rep => rw [safeIntervalReport_eq s p.1 rep hfr]; rfl

/-- Witness for C4: the store holding one NaN report is non-empty, and
`All` returns its sanitized contents without error. -/
theorem all_empty_error_iff_witness :
    Summaries.All storeNaN
      = Except.ok (List.map (fun p => Summaries.safeIntervalReport storeNaN p.1) storeNaN) :=
  ((all_empty_error_iff storeNaN).2.2 (by decide)).1

/-- Claim C10: `All` returns NaN-sanitized copies, not the stored
reports: for any role present in a store on which `All` succeeds, the
returned list contains the role's sanitized report (NaN rate fields
replaced by -1), while `findRole` for the same role still returns the
stored report with those NaN values intact. -/
theorem all_returns_sanitized_copies (s : Summaries) (role : String)
    (rep : IntervalReport) (l : List (Option IntervalReport))
    (h : Summaries.findRole s role = some rep)
    (hall : Summaries.All s = Except.ok l) :
    Summaries.safeIntervalReport s role ∈ l ∧
    Summaries.safeIntervalReport s role = some
      { rep with
        CurrentRate := if rep.CurrentRate.isNaN then GFloat.fin (-1) else rep.CurrentRate
        LifetimeRate := if rep.LifetimeRate.isNaN then GFloat.fin (-1) else rep.LifetimeRate
        StandardDev := if rep.StandardDev.isNaN then GFloat.fin (-1) else rep.StandardDev
        WindowRate := if rep.WindowRate.isNaN then GFloat.fin (-1) else rep.WindowRate } ∧
    Summaries.findRole s role = some rep := by
  refine ⟨?_, safeIntervalReport_eq s role rep h, h⟩
  rw [All_ok_eq s l hall]
  unfold Summaries.findRole at h
  cases hfind : List.find? (fun p => p.1 == role) s with
  | none => rw [hfind] at h; cases h
  | some p =>
    have hmem := List.mem_of_find?_eq_some hfind
    have hkey : p.1 = role := by
      have h2 := List.find?_some hfind
      simpa using h2
    have h3 := List.mem_map_of_mem (fun p => Summaries.safeIntervalReport s p.1) hmem
    rw [← hkey]
    simpa using h3

/-- Witness for C10: at the NaN store, the sanitized report for role "n"
is an element of the list `All` returns. -/
theorem all_returns_sanitized_copies_witness :
    Summaries.safeIntervalReport storeNaN "n" ∈
      List.map (fun p => Summaries.safeIntervalReport storeNaN p.1) storeNaN := by
  have hall : Summaries.All storeNaN
      = Except.ok (List.map (fun p => Summaries.safeIntervalReport storeNaN p.1) storeNaN) := by
    have hne : Summaries.Len storeNaN ≠ 0 := by decide
    unfold Summaries.All
    rw [if_neg hne]
  exact (all_returns_sanitized_copies storeNaN "n" repNaN _ rfl hall).1

/-- A report whose first-seen and last-seen timestamps differ: first seen
at epoch second 100, last seen at epoch second 200, age 5 seconds. -/
def rep6 : IntervalReport :=
  { PID := 7, Role := "mgr", InitTimestamp := ⟨100, 0⟩, Timestamp := ⟨200, 0⟩
    Age := 5000000000, WindowRate := GFloat.fin 0, StandardDev := GFloat.fin 0
    LifetimeRate := GFloat.fin 0, CurrentRate := GFloat.fin 0
    TimesRestated := 0, VirtMemoryBytes := 1024, RSSBytes := 0
    RateHistogram := [] }

/-- Claim C6, evaluated at the failing input: the text exposition is four
newline-terminated lines of the claimed shape, but the line labelled
`bro_process_start_seconds` (whose local variable in the source is even
named `first_seen`) carries the last-seen timestamp 200, not the
first-seen timestamp 100 the claim and the spec require. -/
theorem string_start_line_uses_last_seen :
    rep6.InitTimestamp.Unix = 100 ∧ rep6.Timestamp.Unix = 200 ∧
    IntervalReport.string rep6 =
      "bro_pid\x7brole=\"mgr\"\x7d 7\n" ++
      "bro_process_start_seconds\x7brole=\"mgr\"\x7d 200\n" ++
      "bro_process_age_seconds\x7brole=\"mgr\"\x7d 5\n" ++
      "bro_virtual_memory_bytes\x7brole=\"mgr\"\x7d 1024\n" := by
  refine ⟨rfl, rfl, ?_⟩
  have hage : ratTruncInt (durationSeconds rep6.Age) = 5 := by
    have h1 : durationSeconds rep6.Age = 5 := by norm_num [durationSeconds, rep6]
    rw [h1]
    norm_num [ratTruncInt]
  simp only [IntervalReport.string]
  rw [hage]
  decide

/-! ### Scheduler lemmas -/

theorem schedStep_recv_none (st : SchedState) :
    schedStep st (SchedEvent.recv none) = none := rfl

theorem schedStep_isSome (st : SchedState) (e : SchedEvent)
    (h : e ≠ SchedEvent.recv none) : ∃ st2, schedStep st e = some st2 := by
  cases e with
  | recv o =>
    cases o with
    | none => exact absurd rfl h
    | some r => exact ⟨_, rfl⟩
  | tick =>
    by_cases hb : Summaries.Empty st.store = true
    · exact ⟨st, by simp [schedStep, hb]⟩
    · cases hj : Summaries.ToJSON st.store with
      | error e2 =>
        exact ⟨{ st with logs := st.logs ++ [e2] }, by simp [schedStep, hb, hj]⟩
      | ok d =>
        exact ⟨{ st with output := st.output ++ [d] }, by simp [schedStep, hb, hj]⟩
  | idle => exact ⟨st, rfl⟩

theorem schedRun_terminated_iff (st : SchedState) (es : List SchedEvent) :
    (schedRun st es).2 = true ↔ SchedEvent.recv none ∈ es := by
  induction es generalizing st with
  | nil => simp [schedRun]
  | cons e es ih =>
    by_cases he : e = SchedEvent.recv none
    · subst he
      simp [schedRun, schedStep]
    · obtain ⟨st2, hst2⟩ := schedStep_isSome st e he
      have he2 : SchedEvent.recv none ≠ e := fun hh => he hh.symm
      simp [schedRun, hst2, ih, he2]

theorem schedRun_insert_decompose (st : SchedState) (r : IntervalReport)
    (l rest : List SchedEvent) (h : SchedEvent.recv none ∉ l) :
    schedRun st (l ++ SchedEvent.recv (some r) :: rest)
      = schedRun { (schedRun st l).1 with
          store := Summaries.Insert (schedRun st l).1.store r } rest := by
  induction l generalizing st with
  | nil => simp [schedRun, schedStep]
  | cons e l ih =>
    have he : e ≠ SchedEvent.recv none := by
      intro hh
      exact h (by rw [hh]; exact List.mem_cons_self _ _)
    obtain ⟨st2, hst2⟩ := schedStep_isSome st e he
    have h2 : SchedEvent.recv none ∉ l := fun hh => h (List.mem_cons_of_mem e hh)
    simp only [List.cons_append, schedRun, hst2]
    exact ih st2 h2

/-- The scheduler state at program start: empty store, nothing written,
nothing logged. -/
def schedState0 : SchedState := ⟨initialStore, [], []⟩

/-- A scheduler state whose store holds a report with a -Inf rate field,
so that `ToJSON` fails. -/
def schedStateInf : SchedState := ⟨infStore, [], []⟩

/-- Claim C7: the reporting loop inserts every received report into the
store immediately upon receipt (one step on `recv (some r)` is exactly an
`Insert`); receiving the nil end-of-stream marker terminates the loop,
and the loop terminates only on that marker; and a run over any schedule
processes each report received before the marker by inserting it at its
position — none is dropped. -/
theorem scheduler_loop_spec :
    (∀ st r, schedStep st (SchedEvent.recv (some r))
      = some { st with store := Summaries.Insert st.store r }) ∧
    (∀ st, schedStep st (SchedEvent.recv none) = none) ∧
    (∀ st es, (schedRun st es).2 = true ↔ SchedEvent.recv none ∈ es) ∧
    (∀ st r l rest, SchedEvent.recv none ∉ l →
      schedRun st (l ++ SchedEvent.recv (some r) :: rest)
        = schedRun { (schedRun st l).1 with
            store := Summaries.Insert (schedRun st l).1.store r } rest) :=
  ⟨fun _ _ => rfl, fun _ => rfl, schedRun_terminated_iff, schedRun_insert_decompose⟩

/-- Witness for C7: from the start state, a report received first in the
schedule is inserted before the rest runs, and a schedule consisting of
the nil marker terminates the loop. -/
theorem scheduler_loop_spec_witness :
    schedRun schedState0 ([] ++ SchedEvent.recv (some repNaN) :: [])
      = schedRun { (schedRun schedState0 []).1 with
          store := Summaries.Insert (schedRun schedState0 []).1.store repNaN } [] ∧
    (schedRun schedState0 [SchedEvent.recv none]).2 = true :=
  ⟨scheduler_loop_spec.2.2.2 schedState0 repNaN [] [] (by simp),
    (scheduler_loop_spec.2.2.1 schedState0 [SchedEvent.recv none]).mpr (by simp)⟩

/-- Claim C8: on a timer tick, an empty store means the state is left
entirely unchanged (nothing written); on a non-empty store, a failing
`ToJSON` is appended to the log with output and store untouched (the
flush is skipped, so the next tick can retry), and a successful `ToJSON`
is appended to the output sink. -/
theorem tick_flush_spec (st : SchedState) :
    (Summaries.Empty st.store = true → schedStep st SchedEvent.tick = some st) ∧
    (Summaries.Empty st.store = false →
      (∀ e, Summaries.ToJSON st.store = Except.error e →
        schedStep st SchedEvent.tick = some { st with logs := st.logs ++ [e] }) ∧
      (∀ d, Summaries.ToJSON st.store = Except.ok d →
        schedStep st SchedEvent.tick = some { st with output := st.output ++ [d] })) := by
  refine ⟨fun hb => by simp [schedStep, hb], fun hb =>
    ⟨fun e he => by simp [schedStep, hb, he], fun d hd => by simp [schedStep, hb, hd]⟩⟩

/-- Witness for C8: with a -Inf report stored, the tick logs the encoder
failure and leaves store and output unchanged; with the empty store, the
tick changes nothing. -/
theorem tick_flush_spec_witness :
    schedStep schedStateInf SchedEvent.tick
      = some { schedStateInf with logs := schedStateInf.logs ++ [GoError.unsupportedValue] } ∧
    schedStep schedState0 SchedEvent.tick = some schedState0 :=
  ⟨((tick_flush_spec schedStateInf).2 rfl).1 GoError.unsupportedValue rfl,
    (tick_flush_spec schedState0).1 rfl⟩

/-- Claim C9 (Sample Window, modelled from the spec): `mean` is the NaN
sentinel on a window holding zero samples; `stddev` is the NaN sentinel
with fewer than 2 samples; and a window holding 2 or more identical
samples has population standard deviation exactly 0. -/
theorem window_stats_spec (w : SampleWindow) (x : ℚ) (n : ℕ) :
    (w.samples.length = 0 → w.mean = GFloat.nan) ∧
    (w.samples.length < 2 → w.stddev = GFloat.nan) ∧
    (2 ≤ n → w.samples = List.replicate n x → w.stddev = GFloat.fin 0) := by
  refine ⟨fun h0 => by simp [SampleWindow.mean, h0],
    fun h2 => by simp [SampleWindow.stddev, h2], fun hn hs => ?_⟩
  have hn0 : (n : ℚ) ≠ 0 := Nat.cast_ne_zero.mpr (by omega)
  have hsq : Rat.sqrt 0 = 0 := by
    simp
  have hm : (List.replicate n x).sum / ((List.replicate n x).length : ℚ) = x := by
    rw [List.sum_replicate, List.length_replicate, nsmul_eq_mul]
    exact mul_div_cancel_left₀ x hn0
  simp only [SampleWindow.stddev, hs, hm, List.length_replicate]
  rw [if_neg (by omega)]
  rw [List.map_replicate]
  simp only [List.sum_replicate, nsmul_eq_mul]
  have hx : x - (n : ℚ) * x / (n : ℚ) = 0 := by
    rw [mul_div_cancel_left₀ x hn0]
    ring
  rw [hx]
  norm_num [hsq]

/-- Witness for C9: the empty window's mean is NaN, a one-sample window's
stddev is NaN, and a window of two identical samples has stddev 0. -/
theorem window_stats_spec_witness :
    SampleWindow.mean ⟨4, []⟩ = GFloat.nan ∧
    SampleWindow.stddev ⟨4, [(1 : ℚ)]⟩ = GFloat.nan ∧
    SampleWindow.stddev ⟨4, [(2 : ℚ), 2]⟩ = GFloat.fin 0 :=
  ⟨(window_stats_spec ⟨4, []⟩ 0 0).1 rfl,
    (window_stats_spec ⟨4, [(1 : ℚ)]⟩ 0 0).2.1 (by decide),
    (window_stats_spec ⟨4, [(2 : ℚ), 2]⟩ 2 2).2.2 (by decide) rfl⟩

/-- Witness for C2: after serializing the NaN store, role "n" still reads
back as the stored report with its NaN fields intact. -/
theorem serialization_never_mutates_witness :
    Summaries.findRole (Summaries.storeAfterRoleToJSON storeNaN "n") "n" = some repNaN :=
  (serialization_never_mutates storeNaN "n" "n" repNaN rfl).1
